import Mathlib

/-!
Shallow embedding of the last-mile delivery dashboard script (src/app.py).

The script is one linear pandas pipeline: load a CSV, strip header names,
normalize blank/sentinel cells to missing, resolve header-name variants to
eight canonical fields, copy the resolved columns into a standardized table,
coerce three columns to numbers, drop rows with missing delivery time,
derive a late flag and an age bucket, filter by five user-selected value
sets, and render three scalar metrics plus charts.

Modelling conventions: pandas cells are `Option String` (NaN = `none`);
numeric columns are `Option ℚ` (float values idealized as rationals, NaN =
`none`).  The float comparison `x > mean + std` is embedded in its exact
algebraic form: `std` is a square root, so for a dataset of `n ≥ 2` values
the comparison holds iff `x > mean` and `(x - mean)^2 * (n-1)` exceeds the
sum of squared deviations; for `n ≤ 1` the sample standard deviation is NaN
and any comparison with NaN is false.
-/

namespace LastMile

/-- ASCII lowercase conversion of one character: Python `str.lower` on the
basic latin range (header names are ASCII), as in `Char.toLower`. -/
def lowerChar (c : Char) : Char :=
  if 65 ≤ c.toNat ∧ c.toNat ≤ 90 then Char.ofNat (c.toNat + 32) else c

/-- The whitespace characters removed by Python `str.strip`. -/
def isSpaceChar (c : Char) : Bool :=
  c = ' ' || c = '\t' || c = '\n' || c = '\r' || c = '\x0b' || c = '\x0c'

/-- Strip leading and trailing whitespace from a character list. -/
def trimChars (cs : List Char) : List Char :=
  ((cs.dropWhile isSpaceChar).reverse.dropWhile isSpaceChar).reverse

/-- Python `str.strip` (also pandas `str.strip` on header names). -/
def stripStr (s : String) : String := String.mk (trimChars s.toList)

/-- Header normalization used by column matching: mirrors
`c.lower().strip()` in `find_col` (src/app.py line 51). -/
def normHeader (s : String) : String := stripStr (String.mk (s.toList.map lowerChar))

/-- The inner double loop of `find_col` (src/app.py lines 47-54) for one
canonical field: scan the accepted spellings in order; for each spelling,
scan the actual headers; return the first header whose lowercase-trimmed
form equals that of the spelling, or `none` if no spelling matches. -/
def findOne (options df_cols : List String) : Option String :=
  match options with
  | [] => none
  | o :: rest =>
    match df_cols.find? (fun c => normHeader c == normHeader o) with
    | some c => some c
    | none => findOne rest df_cols

/-- The static variant table (src/app.py lines 34-43): each canonical field
with its ordered list of accepted header spellings. -/
def variants : List (String × List String) :=
  [ ("delivery_time", ["Delivery_Time", "Delivery Time", "Time Taken", "delivery_time"]),
    ("weather", ["Weather", "weather"]),
    ("traffic", ["Traffic", "traffic"]),
    ("vehicle", ["Vehicle", "vehicle", "Vehicle Type"]),
    ("agent_age", ["Agent_Age", "Agent Age", "Age"]),
    ("agent_rating", ["Agent_Rating", "Agent Rating", "Rating"]),
    ("area", ["Area", "area", "Region"]),
    ("category", ["Category", "category", "Product Category"]) ]

/-- Column resolution (src/app.py lines 45-56): map each canonical field to
the first actual header matching one of its accepted spellings. -/
def find_col (vs : List (String × List String)) (df_cols : List String) :
    List (String × Option String) :=
  vs.map (fun kv => (kv.1, findOne kv.2 df_cols))

/-- Value of a digit string (all characters must be decimal digits). -/
def digitsVal (cs : List Char) : Option ℕ :=
  cs.foldl
    (fun acc c =>
      acc.bind (fun n => if c.isDigit then some (10 * n + (c.toNat - 48)) else none))
    (some 0)

/-- Embeds `pd.to_numeric(_, errors="coerce")` (src/app.py line 78) on plain
decimal literals: optional surrounding whitespace, optional sign, integer
digits, optional dot and fractional digits.  Anything else coerces to
missing (`none`), as the `errors="coerce"` mode does. -/
def to_numeric (s : String) : Option ℚ :=
  let t := trimChars s.toList
  let sr : ℚ × List Char :=
    match t with
    | '-' :: rest => (-1, rest)
    | '+' :: rest => (1, rest)
    | _ => (1, t)
  let ip := sr.2.takeWhile (fun c => c ≠ '.')
  let rest := sr.2.dropWhile (fun c => c ≠ '.')
  match rest with
  | [] =>
    if ip.isEmpty then none
    else (digitsVal ip).map (fun n => sr.1 * n)
  | _ :: fp =>
    if ip.isEmpty && fp.isEmpty then none
    else
      match digitsVal ip, digitsVal fp with
      | some a, some b => some (sr.1 * ((a : ℚ) + (b : ℚ) / (10 ^ fp.length)))
      | _, _ => none

/-- A loaded CSV table: header row and data rows, all cells text
(`pd.read_csv(_, dtype=str)`, src/app.py line 23). -/
structure Table where
  headers : List String
  rows : List (List String)
deriving DecidableEq, Repr

/-- A standardized record with the eight canonical columns (src/app.py
lines 68-78): three numeric fields as optional rationals, five categorical
fields as optional strings; `none` is pandas NaN. -/
structure WorkRecord where
  delivery_time : Option ℚ
  weather : Option String
  traffic : Option String
  vehicle : Option String
  agent_age : Option ℚ
  agent_rating : Option ℚ
  area : Option String
  category : Option String
deriving DecidableEq, Repr

/-- Blank/sentinel normalization (src/app.py lines 30-31): the empty
string and the literal texts "nan" and "None" become missing. -/
def normalizeCell (v : Option String) : Option String :=
  v.bind (fun s => if s = "" ∨ s = "nan" ∨ s = "None" then none else some s)

/-- The cell of header `h` in a raw row: position of the first header named
`h`, missing when the header or the cell is absent. -/
def cellOf (t : Table) (row : List String) (h : String) : Option String :=
  (t.headers.findIdx? (fun c => c == h)).bind (fun i => row.get? i)

/-- Value of canonical field `key` in a raw row given the resolved column
map: copy from the resolved source column, or entirely missing when the
field is unresolved (`work[key] = np.nan`, src/app.py line 74). -/
def rawField (t : Table) (colMap : List (String × Option String))
    (row : List String) (key : String) : Option String :=
  match colMap.lookup key with
  | some (some h) => normalizeCell (cellOf t row h)
  | _ => none

/-- Build one standardized record from a raw row (src/app.py lines 68-78),
coercing the three numeric fields with `to_numeric`. -/
def toWorkRecord (t : Table) (colMap : List (String × Option String))
    (row : List String) : WorkRecord :=
  { delivery_time := (rawField t colMap row "delivery_time").bind to_numeric
    weather := rawField t colMap row "weather"
    traffic := rawField t colMap row "traffic"
    vehicle := rawField t colMap row "vehicle"
    agent_age := (rawField t colMap row "agent_age").bind to_numeric
    agent_rating := (rawField t colMap row "agent_rating").bind to_numeric
    area := rawField t colMap row "area"
    category := rawField t colMap row "category" }

/-- The standardized table: one `WorkRecord` per raw row. -/
def buildWork (t : Table) (colMap : List (String × Option String)) :
    List WorkRecord :=
  t.rows.map (toWorkRecord t colMap)

/-- Row filter (src/app.py line 82): `work.dropna(subset=["delivery_time"])`
drops every record whose delivery time is missing. -/
def dropInvalid (rows : List WorkRecord) : List WorkRecord :=
  rows.filter (fun r => r.delivery_time.isSome)

/-- Sum of squared deviations of `dts` from its mean. -/
def ssd (dts : List ℚ) : ℚ :=
  let m := dts.sum / dts.length
  (dts.map (fun d => (d - m) ^ 2)).sum

/-- Late flag (src/app.py lines 91-93):
`np.where(dt > mean + std, 1, 0)` where `std` is the pandas default sample
standard deviation (`ddof = 1`).  Exact algebraic form of the float
comparison: for `n ≥ 2` values, `x > m + sqrt (ssd / (n-1))` iff `x > m`
and `ssd < (x - m)^2 * (n-1)` (proved in `lateFlag_eq_one_iff` below);
for `n ≤ 1` the sample standard deviation is NaN, every comparison with
NaN is false, and the flag is 0. -/
def lateFlag (dts : List ℚ) (x : ℚ) : ℕ :=
  let n := dts.length
  let m := dts.sum / n
  if 2 ≤ n ∧ m < x ∧ ssd dts < (x - m) ^ 2 * ((n : ℚ) - 1) then 1 else 0

/-- Modelled from the spec: the late flag the specification describes, which
thresholds at the mean plus one POPULATION standard deviation
`sqrt (ssd / n)` (the code instead uses the pandas default sample standard
deviation).  Exact algebraic form as for `lateFlag`: for `n ≥ 1`,
`x > m + sqrt (ssd / n)` iff `x > m` and `ssd < (x - m)^2 * n`
(proved in `lateFlagPop_eq_one_iff` below). -/
def lateFlagPop (dts : List ℚ) (x : ℚ) : ℕ :=
  let n := dts.length
  let m := dts.sum / n
  if 1 ≤ n ∧ m < x ∧ ssd dts < (x - m) ^ 2 * (n : ℚ) then 1 else 0

/-- Age bucketing (src/app.py line 94): `pd.cut(agent_age,
bins=[0,24,40,100], labels=["<25","25–40","40+"], include_lowest=True)`.
With `include_lowest` the intervals are [0,24], (24,40], (40,100]; values
outside [0,100] and missing values map to the missing category. -/
def age_group (a : Option ℚ) : Option String :=
  a.bind (fun x =>
    if 0 ≤ x ∧ x ≤ 24 then some "<25"
    else if 24 < x ∧ x ≤ 40 then some "25–40"
    else if 40 < x ∧ x ≤ 100 then some "40+"
    else none)

/-- A cleaned record together with its two derived columns. -/
structure DerivedRecord where
  row : WorkRecord
  late : ℕ
  age_group : Option String
deriving DecidableEq, Repr

/-- Feature engineering (src/app.py lines 90-94) over the cleaned table:
mean and standard deviation are taken over the delivery times of the whole
cleaned table; each record gets its late flag and age bucket.  A record
with missing delivery time (impossible after the row drop) would compare
NaN with the threshold, which is false, so its flag is 0. -/
def addFeatures (cleaned : List WorkRecord) : List DerivedRecord :=
  let dts := cleaned.filterMap (fun r => r.delivery_time)
  cleaned.map (fun r =>
    { row := r
      late :=
        match r.delivery_time with
        | some d => lateFlag dts d
        | none => 0
      age_group := age_group r.agent_age })

/-- The five user filter selections, one list of allowed values per
categorical field. -/
structure Selections where
  weather : List String
  traffic : List String
  vehicle : List String
  area : List String
  category : List String
deriving DecidableEq, Repr

/-- Membership of a possibly-missing value in a selection: pandas `isin`
semantics; a missing value is a member of no selection of strings. -/
def inSel (v : Option String) (sel : List String) : Bool :=
  match v with
  | none => false
  | some s => sel.contains s

/-- Combined row filter (src/app.py lines 111-117): logical AND of the
five per-field membership tests. -/
def passes (r : WorkRecord) (s : Selections) : Bool :=
  inSel r.weather s.weather && inSel r.traffic s.traffic &&
    inSel r.vehicle s.vehicle && inSel r.area s.area &&
    inSel r.category s.category

/-- The filtered view: the rows of the (feature-extended) cleaned table
passing the combined filter. -/
def filteredView (work : List DerivedRecord) (s : Selections) :
    List DerivedRecord :=
  work.filter (fun d => passes d.row s)

/-- Insert a string into a (sorted) list in order. -/
def insertSorted (x : String) : List String → List String
  | [] => [x]
  | y :: ys => if x ≤ y then x :: y :: ys else y :: insertSorted x ys

/-- Sorted list of the distinct elements of `l` (python
`sorted(... .unique().tolist())`); insertion sort over String order. -/
def sortDedup (l : List String) : List String := l.dedup.foldr insertSorted []

/-- Available values of one filter control (src/app.py line 99): the sorted
distinct non-missing values of the column over the cleaned table. -/
def availableVals (work : List DerivedRecord)
    (acc : WorkRecord → Option String) : List String :=
  sortDedup (work.filterMap (fun d => acc d.row))

/-- The default selections: every multiselect defaults to all of its
available values (src/app.py line 101); a field with no available values
yields the empty selection (line 103). -/
def defaultSelections (work : List DerivedRecord) : Selections :=
  { weather := availableVals work (fun r => r.weather)
    traffic := availableVals work (fun r => r.traffic)
    vehicle := availableVals work (fun r => r.vehicle)
    area := availableVals work (fun r => r.area)
    category := availableVals work (fun r => r.category) }

/-- pandas `Series.mean` over the present values of a numeric column:
NaN (`none`) when there is no value, otherwise the arithmetic mean. -/
def seriesMean (xs : List ℚ) : Option ℚ :=
  if xs.length = 0 then none else some (xs.sum / xs.length)

/-- Round half to even at integer precision (the tie-breaking rule Python
uses when formatting floats). -/
def roundHalfEven (q : ℚ) : ℤ :=
  let f := ⌊q⌋
  if q - f < 1 / 2 then f
  else if q - f > 1 / 2 then f + 1
  else if f % 2 = 0 then f else f + 1

/-- Fixed-point rendering with `k` fractional digits, as Python f-string
formatting does: NaN renders as the string "nan"; a number is rounded
half-to-even at the k-th fractional digit and printed with sign, integer
part, dot and exactly `k` fractional digits. -/
def fmtFixed (k : ℕ) (v : Option ℚ) : String :=
  match v with
  | none => "nan"
  | some q =>
    let z := roundHalfEven (q * 10 ^ k)
    let sign := if z < 0 ∨ (z = 0 ∧ q < 0) then "-" else ""
    let a := z.natAbs
    let ipart := toString (a / 10 ^ k)
    let fr := toString (a % 10 ^ k)
    let frPad := String.mk (List.replicate (k - fr.length) '0') ++ fr
    if k = 0 then sign ++ ipart else sign ++ ipart ++ "." ++ frPad

/-- The three scalar metrics as rendered to the user (src/app.py lines
122-125): mean delivery time and mean agent rating with two decimals, late
percentage (mean of the late column times 100) with one decimal and a
percent sign.  pandas means skip missing values; the late column has
none. -/
def metricsText (filtered : List DerivedRecord) : String × String × String :=
  ( fmtFixed 2 (seriesMean (filtered.filterMap (fun d => d.row.delivery_time)))
  , fmtFixed 2 (seriesMean (filtered.filterMap (fun d => d.row.agent_rating)))
  , fmtFixed 1 ((seriesMean (filtered.map (fun d => (d.late : ℚ)))).map
      (fun m => m * 100)) ++ "%" )

/-- What one chart hand-off to the presentation surface carries: either an
informational no-data placeholder or the data handed to the plotting
call. -/
inductive ChartOut where
  | noData (msg : String)
  | bar (data : List (String × ℚ))
  | scatter (data : List DerivedRecord)
  | box (data : List DerivedRecord)
deriving DecidableEq, Repr

/-- `filtered.groupby(col, as_index=False)["delivery_time"].mean()`:
pandas groups by the distinct non-missing keys in sorted order and takes
the mean delivery time of each group (each group is nonempty by
construction). -/
def groupMeanDT (rows : List DerivedRecord)
    (acc : WorkRecord → Option String) : List (String × ℚ) :=
  (sortDedup (rows.filterMap (fun d => acc d.row))).map (fun k =>
    let grp := (rows.filter (fun d => acc d.row == some k)).filterMap
      (fun d => d.row.delivery_time)
    (k, grp.sum / grp.length))

/-- `show_bar` (src/app.py lines 130-135): an informational placeholder
when the grouped frame is empty, otherwise a bar chart of the groups. -/
def show_bar (data : List (String × ℚ)) (title : String) : ChartOut :=
  if data.isEmpty then .noData ("No data available for " ++ title ++ ".")
  else .bar data

/-- `show_scatter` (src/app.py lines 137-142): placeholder when the passed
frame is empty, otherwise a scatter over its rows. -/
def show_scatter (data : List DerivedRecord) (title : String) : ChartOut :=
  if data.isEmpty then .noData ("No data for " ++ title ++ ".") else .scatter data

/-- Everything a completed run hands to the presentation surface: the
feature-extended cleaned table, the filtered view, the three scalar metric
strings, the four grouped bar charts, the scatter and the box plot. -/
structure RenderOut where
  work : List DerivedRecord
  filtered : List DerivedRecord
  metrics : String × String × String
  barWeather : ChartOut
  barTraffic : ChartOut
  barVehicle : ChartOut
  barArea : ChartOut
  scatterAgent : ChartOut
  boxCategory : ChartOut
deriving DecidableEq, Repr

/-- Result of one script run: a fatal user-visible halt carrying only its
error message (and so no metric or chart content), or a completed
render. -/
inductive PipelineResult where
  | fatal (msg : String)
  | rendered (out : RenderOut)
deriving DecidableEq, Repr

/-- Header strip of the loaded table (src/app.py line 26). -/
def strippedTable (t : Table) : Table :=
  { headers := t.headers.map stripStr, rows := t.rows }

/-- The resolved column map of a loaded table (src/app.py line 58). -/
def colMapOf (t : Table) : List (String × Option String) :=
  find_col variants (strippedTable t).headers

/-- The standardized table of a loaded table (src/app.py lines 68-78). -/
def workOf (t : Table) : List WorkRecord :=
  buildWork (strippedTable t) (colMapOf t)

/-- The cleaned table: standardized rows surviving the row drop
(src/app.py line 82). -/
def cleanedOf (t : Table) : List WorkRecord := dropInvalid (workOf t)

/-- The feature-extended cleaned table (src/app.py lines 90-94). -/
def derivedOf (t : Table) : List DerivedRecord := addFeatures (cleanedOf t)

/-- The full render of a completed run (src/app.py lines 96-170) for the
given user selections. -/
def renderAll (t : Table) (sels : Selections) : RenderOut :=
  let work := derivedOf t
  let filtered := filteredView work sels
  { work := work
    filtered := filtered
    metrics := metricsText filtered
    barWeather := show_bar (groupMeanDT filtered (fun r => r.weather))
      "Avg Delivery Time by Weather"
    barTraffic := show_bar (groupMeanDT filtered (fun r => r.traffic))
      "Avg Delivery Time by Traffic"
    barVehicle := show_bar (groupMeanDT filtered (fun r => r.vehicle))
      "Avg Delivery Time by Vehicle"
    barArea := show_bar (groupMeanDT filtered (fun r => r.area))
      "Avg Delivery Time by Area"
    scatterAgent := show_scatter filtered "Agent Rating vs Delivery Time"
    boxCategory :=
      if filtered.isEmpty then .noData "No data for selected filters."
      else .box filtered }

/-- The whole script (src/app.py lines 19-170) as one function of its
inputs: whether the CSV file exists, the parsed table, and the user
selections (returned by the sidebar controls, defaulting to all available
values).  The two `st.stop()` sites become the two `.fatal` results; any
other input completes and renders. -/
def runPipeline (fileExists : Bool) (t : Table) (sels : Selections) :
    PipelineResult :=
  if fileExists then
    match (colMapOf t).lookup "delivery_time" with
    | some (some _) => .rendered (renderAll t sels)
    | _ => .fatal "Could not find the Delivery_Time column."
  else .fatal "Dataset not found."

/-- A cleaned record with the given delivery time and every other field
missing; used as concrete test input. -/
def mkDT (d : ℚ) : WorkRecord :=
  { delivery_time := some d, weather := none, traffic := none, vehicle := none,
    agent_age := none, agent_rating := none, area := none, category := none }

/-- Comparing against a threshold `m + sqrt v` is comparing against `m`
and, for the excess, against `v` after squaring. -/
theorem sqrt_threshold_iff (m v x : ℝ) :
    m + Real.sqrt v < x ↔ m < x ∧ v < (x - m) ^ 2 := by
  constructor
  · intro h
    have h0 : (0 : ℝ) ≤ Real.sqrt v := Real.sqrt_nonneg v
    have hm : m < x := by linarith
    have h1 : Real.sqrt v < x - m := by linarith
    exact ⟨hm, (Real.sqrt_lt' (by linarith)).mp h1⟩
  · rintro ⟨hm, hv2⟩
    have h1 : Real.sqrt v < x - m := (Real.sqrt_lt' (by linarith)).mpr hv2
    linarith

/-- The sum of squared deviations is nonnegative. -/
theorem ssd_nonneg (dts : List ℚ) : 0 ≤ ssd dts := by
  show 0 ≤ (dts.map (fun d => (d - dts.sum / dts.length) ^ 2)).sum
  apply List.sum_nonneg
  intro y hy
  rcases List.mem_map.mp hy with ⟨d, -, rfl⟩
  positivity

/-- The rational test in `lateFlag` is exactly the real comparison against
the mean plus one sample standard deviation (for `n ≥ 2` values). -/
theorem lateFlag_cond_iff (dts : List ℚ) (x : ℚ) (hn : 2 ≤ dts.length) :
    (dts.sum / (dts.length : ℚ) < x ∧
        ssd dts < (x - dts.sum / dts.length) ^ 2 * ((dts.length : ℚ) - 1)) ↔
      (dts.sum : ℝ) / (dts.length : ℝ) +
          Real.sqrt ((ssd dts : ℝ) / ((dts.length : ℝ) - 1)) < (x : ℝ) := by
  have hn1 : (1 : ℝ) < (dts.length : ℝ) := by exact_mod_cast hn.trans_lt' one_lt_two
  have hpos : (0 : ℝ) < (dts.length : ℝ) - 1 := by linarith
  rw [sqrt_threshold_iff]
  constructor
  · rintro ⟨h1, h2⟩
    refine ⟨by exact_mod_cast h1, ?_⟩
    rw [div_lt_iff₀ hpos]
    exact_mod_cast h2
  · rintro ⟨h1, h2⟩
    rw [div_lt_iff₀ hpos] at h2
    exact ⟨by exact_mod_cast h1, by exact_mod_cast h2⟩

/-- The rational test in `lateFlagPop` is exactly the real comparison
against the mean plus one population standard deviation (for `n ≥ 1`
values). -/
theorem lateFlagPop_cond_iff (dts : List ℚ) (x : ℚ) (hn : 1 ≤ dts.length) :
    (dts.sum / (dts.length : ℚ) < x ∧
        ssd dts < (x - dts.sum / dts.length) ^ 2 * (dts.length : ℚ)) ↔
      (dts.sum : ℝ) / (dts.length : ℝ) +
          Real.sqrt ((ssd dts : ℝ) / (dts.length : ℝ)) < (x : ℝ) := by
  have hpos : (0 : ℝ) < (dts.length : ℝ) := by exact_mod_cast hn
  rw [sqrt_threshold_iff]
  constructor
  · rintro ⟨h1, h2⟩
    refine ⟨by exact_mod_cast h1, ?_⟩
    rw [div_lt_iff₀ hpos]
    exact_mod_cast h2
  · rintro ⟨h1, h2⟩
    rw [div_lt_iff₀ hpos] at h2
    exact ⟨by exact_mod_cast h1, by exact_mod_cast h2⟩

/-- `lateFlag` is 1 exactly on delivery times strictly above the mean plus
one sample standard deviation, the comparison being false (flag 0) when
the standard deviation is undefined (fewer than two values). -/
theorem lateFlag_eq_one_iff (dts : List ℚ) (x : ℚ) :
    lateFlag dts x = 1 ↔
      2 ≤ dts.length ∧
        (dts.sum : ℝ) / (dts.length : ℝ) +
            Real.sqrt ((ssd dts : ℝ) / ((dts.length : ℝ) - 1)) < (x : ℝ) := by
  show (if 2 ≤ dts.length ∧ dts.sum / (dts.length : ℚ) < x ∧
      ssd dts < (x - dts.sum / dts.length) ^ 2 * ((dts.length : ℚ) - 1)
      then 1 else 0) = 1 ↔ _
  split_ifs with h
  · exact iff_of_true rfl ⟨h.1, (lateFlag_cond_iff dts x h.1).mp h.2⟩
  · refine iff_of_false (by simp) ?_
    rintro ⟨hn, hreal⟩
    exact h ⟨hn, (lateFlag_cond_iff dts x hn).mpr hreal⟩

/-- `lateFlagPop` is 1 exactly on delivery times strictly above the mean
plus one population standard deviation (over a nonempty dataset). -/
theorem lateFlagPop_eq_one_iff (dts : List ℚ) (x : ℚ) :
    lateFlagPop dts x = 1 ↔
      1 ≤ dts.length ∧
        (dts.sum : ℝ) / (dts.length : ℝ) +
            Real.sqrt ((ssd dts : ℝ) / (dts.length : ℝ)) < (x : ℝ) := by
  show (if 1 ≤ dts.length ∧ dts.sum / (dts.length : ℚ) < x ∧
      ssd dts < (x - dts.sum / dts.length) ^ 2 * (dts.length : ℚ)
      then 1 else 0) = 1 ↔ _
  split_ifs with h
  · exact iff_of_true rfl ⟨h.1, (lateFlagPop_cond_iff dts x h.1).mp h.2⟩
  · refine iff_of_false (by simp) ?_
    rintro ⟨hn, hreal⟩
    exact h ⟨hn, (lateFlagPop_cond_iff dts x hn).mpr hreal⟩

/-- C1 (counterexample): the claim reads the late threshold as the mean
plus one POPULATION standard deviation, as the specification states
("population stddev").  On cleaned delivery times [0, 1, 2] the code flags
nothing (pandas `.std()` is the sample standard deviation 1, and 2 > 1 + 1
is false), yet the delivery time 2 strictly exceeds the mean plus one
population standard deviation, 1 + sqrt(2/3); so the claim as stated is
false on this input. -/
theorem late_flag_population_counterexample :
    (addFeatures [mkDT 0, mkDT 1, mkDT 2]).map (fun d => d.late) = [0, 0, 0] ∧
      (([0, 1, 2] : List ℚ).sum : ℝ) / (([0, 1, 2] : List ℚ).length : ℝ) +
          Real.sqrt ((ssd [0, 1, 2] : ℝ) / (([0, 1, 2] : List ℚ).length : ℝ)) <
        ((2 : ℚ) : ℝ) := by
  constructor
  · simp [addFeatures, mkDT]
    norm_num [lateFlag, ssd]
  · exact ((lateFlagPop_eq_one_iff [0, 1, 2] 2).mp (by norm_num [lateFlagPop, ssd])).2

/-- C1 (amended): the late flag of a cleaned record is 1 exactly when its
delivery time exceeds the mean plus one SAMPLE standard deviation
(`ddof = 1`, the pandas default) of the delivery times of the entire
cleaned dataset, computed after the row drop and before any user
filtering, and 0 otherwise (also when the standard deviation is undefined,
i.e. fewer than two records); in particular, for the input delivery times
[10, 20, 30, 1000] the late flags are [0, 0, 0, 1]. -/
theorem late_flag_sample_std :
    (∀ (cleaned : List WorkRecord) (d : DerivedRecord),
        d ∈ addFeatures cleaned →
          (d.row.delivery_time = none ∧ d.late = 0) ∨
            ∃ x : ℚ, d.row.delivery_time = some x ∧
              d.late = lateFlag (cleaned.filterMap (fun r => r.delivery_time)) x) ∧
    (∀ (dts : List ℚ) (x : ℚ),
        lateFlag dts x = 1 ↔
          2 ≤ dts.length ∧
            (dts.sum : ℝ) / (dts.length : ℝ) +
                Real.sqrt ((ssd dts : ℝ) / ((dts.length : ℝ) - 1)) < (x : ℝ)) ∧
    (addFeatures [mkDT 10, mkDT 20, mkDT 30, mkDT 1000]).map (fun d => d.late) =
      [0, 0, 0, 1] := by
  refine ⟨?_, lateFlag_eq_one_iff, ?_⟩
  · intro cleaned d hd
    rcases List.mem_map.mp hd with ⟨r, hr, rfl⟩
    cases h : r.delivery_time with
    | none => exact Or.inl ⟨rfl, rfl⟩
    | some x => exact Or.inr ⟨x, rfl, rfl⟩
  · simp [addFeatures, mkDT]
    norm_num [lateFlag, ssd]

/-- C1 (witness): the amended theorem applied to the concrete cleaned
dataset with delivery times [10, 20, 30, 1000] and its fourth derived
record. -/
theorem late_flag_sample_std_witness :
    ((⟨mkDT 1000, 1, none⟩ : DerivedRecord).row.delivery_time = none ∧
        (⟨mkDT 1000, 1, none⟩ : DerivedRecord).late = 0) ∨
      ∃ x : ℚ, (⟨mkDT 1000, 1, none⟩ : DerivedRecord).row.delivery_time = some x ∧
        (⟨mkDT 1000, 1, none⟩ : DerivedRecord).late =
          lateFlag (([mkDT 10, mkDT 20, mkDT 30, mkDT 1000] : List WorkRecord).filterMap
            (fun r => r.delivery_time)) x :=
  late_flag_sample_std.1 [mkDT 10, mkDT 20, mkDT 30, mkDT 1000] ⟨mkDT 1000, 1, none⟩
    (by simp [addFeatures, mkDT, age_group]; norm_num [lateFlag, ssd])

/-- The if-chain form of `age_group` on a present age. -/
theorem age_group_some_eq (x : ℚ) :
    age_group (some x) =
      if 0 ≤ x ∧ x ≤ 24 then some "<25"
      else if 24 < x ∧ x ≤ 40 then some "25–40"
      else if 40 < x ∧ x ≤ 100 then some "40+" else none := rfl

/-- C4: age_group is "<25" exactly on ages in [0,24], "25–40" exactly on
(24,40], "40+" exactly on (40,100], and missing exactly when the age is
missing or outside [0,100]; in particular ages 0 and 24 map to "<25",
25 and 40 to "25–40", 41 and 100 to "40+", and 150 and missing to
missing. -/
theorem age_group_buckets :
    (∀ a : Option ℚ, age_group a = some "<25" ↔
        ∃ x : ℚ, a = some x ∧ 0 ≤ x ∧ x ≤ 24) ∧
    (∀ a : Option ℚ, age_group a = some "25–40" ↔
        ∃ x : ℚ, a = some x ∧ 24 < x ∧ x ≤ 40) ∧
    (∀ a : Option ℚ, age_group a = some "40+" ↔
        ∃ x : ℚ, a = some x ∧ 40 < x ∧ x ≤ 100) ∧
    (∀ a : Option ℚ, age_group a = none ↔
        a = none ∨ ∃ x : ℚ, a = some x ∧ (x < 0 ∨ 100 < x)) ∧
    age_group (some 0) = some "<25" ∧ age_group (some 24) = some "<25" ∧
    age_group (some 25) = some "25–40" ∧ age_group (some 40) = some "25–40" ∧
    age_group (some 41) = some "40+" ∧ age_group (some 100) = some "40+" ∧
    age_group (some 150) = none ∧ age_group (none : Option ℚ) = none := by
  refine ⟨?_, ?_, ?_, ?_, ?_, ?_, ?_, ?_, ?_, ?_, ?_, ?_⟩
  · intro a
    cases a with
    | none => simp [age_group]
    | some x =>
      rw [age_group_some_eq]
      split_ifs with h1 h2 h3 <;> simp_all
  · intro a
    cases a with
    | none => simp [age_group]
    | some x =>
      rw [age_group_some_eq]
      split_ifs with h1 h2 h3 <;> simp_all
  · intro a
    cases a with
    | none => simp [age_group]
    | some x =>
      rw [age_group_some_eq]
      split_ifs with h1 h2 h3 <;> simp_all
      intro h
      linarith [h1.2]
  · intro a
    cases a with
    | none => simp [age_group]
    | some x =>
      rw [age_group_some_eq]
      split_ifs with h1 h2 h3 <;> simp_all
      · linarith [h1.2]
      · exact ⟨by linarith [h2.1], by linarith [h2.2]⟩
      · linarith [h3.1]
      · rcases lt_or_ge x 0 with hx | hx
        · exact Or.inl hx
        · exact Or.inr (h3 (h2 (h1 hx)))
  all_goals norm_num [age_group]

/-- Propositional form of the `isin` membership test: it holds exactly
when the value is present and lies in the selection. -/
theorem inSel_eq_true_iff (v : Option String) (sel : List String) :
    inSel v sel = true ↔ ∃ s, v = some s ∧ s ∈ sel := by
  cases v with
  | none => simp [inSel]
  | some s => simp [inSel]

/-- Propositional form of the combined filter: conjunction of the five
per-field membership tests. -/
theorem passes_eq_true_iff (r : WorkRecord) (s : Selections) :
    passes r s = true ↔
      (∃ v, r.weather = some v ∧ v ∈ s.weather) ∧
      (∃ v, r.traffic = some v ∧ v ∈ s.traffic) ∧
      (∃ v, r.vehicle = some v ∧ v ∈ s.vehicle) ∧
      (∃ v, r.area = some v ∧ v ∈ s.area) ∧
      (∃ v, r.category = some v ∧ v ∈ s.category) := by
  simp [passes, inSel_eq_true_iff, and_assoc]

/-- Membership in the filtered view: membership in the work table plus the
five per-field membership tests. -/
theorem mem_filteredView_iff (work : List DerivedRecord) (s : Selections)
    (d : DerivedRecord) :
    d ∈ filteredView work s ↔
      d ∈ work ∧
        (∃ v, d.row.weather = some v ∧ v ∈ s.weather) ∧
        (∃ v, d.row.traffic = some v ∧ v ∈ s.traffic) ∧
        (∃ v, d.row.vehicle = some v ∧ v ∈ s.vehicle) ∧
        (∃ v, d.row.area = some v ∧ v ∈ s.area) ∧
        (∃ v, d.row.category = some v ∧ v ∈ s.category) := by
  rw [filteredView, List.mem_filter, passes_eq_true_iff]

/-- C3: a cleaned record is in the filtered view iff its value in every
one of the five categorical fields is a member of that field's selection
(logical AND across fields); consequently an empty selection on any one
field empties the filtered view regardless of the other four. -/
theorem filter_and_semantics :
    (∀ (work : List DerivedRecord) (s : Selections) (d : DerivedRecord),
        d ∈ filteredView work s ↔
          d ∈ work ∧
            (∃ v, d.row.weather = some v ∧ v ∈ s.weather) ∧
            (∃ v, d.row.traffic = some v ∧ v ∈ s.traffic) ∧
            (∃ v, d.row.vehicle = some v ∧ v ∈ s.vehicle) ∧
            (∃ v, d.row.area = some v ∧ v ∈ s.area) ∧
            (∃ v, d.row.category = some v ∧ v ∈ s.category)) ∧
    (∀ (work : List DerivedRecord) (s : Selections),
        s.weather = [] ∨ s.traffic = [] ∨ s.vehicle = [] ∨ s.area = [] ∨
            s.category = [] →
          filteredView work s = []) := by
  refine ⟨mem_filteredView_iff, ?_⟩
  intro work s hs
  rw [filteredView, List.filter_eq_nil_iff]
  intro d hd hp
  rw [passes_eq_true_iff] at hp
  obtain ⟨hw, ht, hv, ha, hc⟩ := hp
  rcases hs with h | h | h | h | h
  · rcases hw with ⟨v, -, hv2⟩
    rw [h] at hv2
    exact absurd hv2 (List.not_mem_nil v)
  · rcases ht with ⟨v, -, hv2⟩
    rw [h] at hv2
    exact absurd hv2 (List.not_mem_nil v)
  · rcases hv with ⟨v, -, hv2⟩
    rw [h] at hv2
    exact absurd hv2 (List.not_mem_nil v)
  · rcases ha with ⟨v, -, hv2⟩
    rw [h] at hv2
    exact absurd hv2 (List.not_mem_nil v)
  · rcases hc with ⟨v, -, hv2⟩
    rw [h] at hv2
    exact absurd hv2 (List.not_mem_nil v)

/-- C3 (witness): emptying the weather selection empties the filtered view
of a concrete one-record table whose other selections are nonempty. -/
theorem filter_and_semantics_witness :
    filteredView [⟨mkDT 5, 0, none⟩]
        ⟨[], ["a"], ["a"], ["a"], ["a"]⟩ = [] :=
  filter_and_semantics.2 [⟨mkDT 5, 0, none⟩] ⟨[], ["a"], ["a"], ["a"], ["a"]⟩
    (Or.inl rfl)

/-- C10: every record of the filtered view has a present value in all five
categorical fields; hence a cleaned record with a missing value in any of
them is excluded from the filtered view even under the default selection
of all distinct non-missing values (a missing value is a member of no
selection). -/
theorem filtered_records_not_missing :
    (∀ (work : List DerivedRecord) (s : Selections) (d : DerivedRecord),
        d ∈ filteredView work s →
          d.row.weather.isSome ∧ d.row.traffic.isSome ∧ d.row.vehicle.isSome ∧
            d.row.area.isSome ∧ d.row.category.isSome) ∧
    (∀ (work : List DerivedRecord) (d : DerivedRecord),
        d.row.weather = none ∨ d.row.traffic = none ∨ d.row.vehicle = none ∨
            d.row.area = none ∨ d.row.category = none →
          d ∉ filteredView work (defaultSelections work)) := by
  have key : ∀ (work : List DerivedRecord) (s : Selections) (d : DerivedRecord),
      d ∈ filteredView work s →
        d.row.weather.isSome ∧ d.row.traffic.isSome ∧ d.row.vehicle.isSome ∧
          d.row.area.isSome ∧ d.row.category.isSome := by
    intro work s d hd
    rw [mem_filteredView_iff] at hd
    obtain ⟨-, ⟨v1, h1, -⟩, ⟨v2, h2, -⟩, ⟨v3, h3, -⟩, ⟨v4, h4, -⟩, ⟨v5, h5, -⟩⟩ := hd
    simp [h1, h2, h3, h4, h5]
  refine ⟨key, ?_⟩
  intro work d hmiss hd
  have h := key work (defaultSelections work) d hd
  rcases hmiss with hm | hm | hm | hm | hm <;> rw [hm] at h <;> simp at h

/-- C10 (witness): a concrete record with missing weather is not in the
filtered view under the default selections of its own table. -/
theorem filtered_records_not_missing_witness :
    (⟨mkDT 5, 0, none⟩ : DerivedRecord) ∉
      filteredView [⟨mkDT 5, 0, none⟩]
        (defaultSelections [⟨mkDT 5, 0, none⟩]) :=
  filtered_records_not_missing.2 [⟨mkDT 5, 0, none⟩] ⟨mkDT 5, 0, none⟩
    (Or.inl rfl)

/-- C6: every record of the cleaned table (the output of the row drop) has
a present, numeric delivery time, and the row count after cleaning is at
most the row count before cleaning. -/
theorem drop_invariant :
    ∀ t : Table,
      (∀ r ∈ cleanedOf t, r.delivery_time.isSome) ∧
        (cleanedOf t).length ≤ t.rows.length := by
  intro t
  constructor
  · intro r hr
    exact (List.mem_filter.mp hr).2
  · calc (cleanedOf t).length ≤ (workOf t).length := List.length_filter_le _ _
      _ = t.rows.length := List.length_map _ _

/-- C6 (witness): the drop invariant applied to a concrete two-row table
whose second row has a blank delivery time, and to the record its first
row cleans to. -/
theorem drop_invariant_witness :
    (toWorkRecord ⟨["Delivery_Time"], [["5"], [""]]⟩
        (colMapOf ⟨["Delivery_Time"], [["5"], [""]]⟩) ["5"]).delivery_time.isSome ∧
      (cleanedOf ⟨["Delivery_Time"], [["5"], [""]]⟩).length ≤
        (⟨["Delivery_Time"], [["5"], [""]]⟩ : Table).rows.length := by
  have h := drop_invariant ⟨["Delivery_Time"], [["5"], [""]]⟩
  refine ⟨h.1 _ ?_, h.2⟩
  refine List.mem_filter.mpr ⟨List.mem_map.mpr ⟨["5"], ?_, rfl⟩, ?_⟩
  · decide
  · rfl

/-- C2 (counterexample): on a concrete run whose filtered view is empty,
the three scalar metrics are rendered as the strings "nan", "nan" and
"nan%", i.e. as Python not-a-number output, not as a missing/undefined
placeholder; this refutes the claim as stated. -/
theorem empty_metrics_counterexample :
    metricsText (filteredView [⟨mkDT 5, 0, none⟩] ⟨[], [], [], [], []⟩) =
      ("nan", "nan", "nan%") := by decide

/-- C2 (amended): when the filtered view is empty, each of the three
scalar metrics is rendered as Pythonic not-a-number text ("nan", "nan",
"nan%") rather than as a missing/undefined placeholder; the charts, by
contrast, do render explicit no-data placeholders. -/
theorem empty_metrics_nan :
    ∀ (work : List DerivedRecord) (s : Selections),
      filteredView work s = [] →
        metricsText (filteredView work s) = ("nan", "nan", "nan%") ∧
          show_bar (groupMeanDT (filteredView work s) (fun r => r.weather))
              "Avg Delivery Time by Weather" =
            ChartOut.noData "No data available for Avg Delivery Time by Weather." := by
  intro work s h
  rw [h]
  exact ⟨by decide, by decide⟩

/-- C2 (witness): the amended theorem applied to a concrete one-record
table with an empty weather selection. -/
theorem empty_metrics_nan_witness :
    metricsText (filteredView [⟨mkDT 5, 0, none⟩] ⟨[], ["a"], ["a"], ["a"], ["a"]⟩) =
        ("nan", "nan", "nan%") ∧
      show_bar (groupMeanDT
            (filteredView [⟨mkDT 5, 0, none⟩] ⟨[], ["a"], ["a"], ["a"], ["a"]⟩)
            (fun r => r.weather))
          "Avg Delivery Time by Weather" =
        ChartOut.noData "No data available for Avg Delivery Time by Weather." :=
  empty_metrics_nan [⟨mkDT 5, 0, none⟩] ⟨[], ["a"], ["a"], ["a"], ["a"]⟩ (by decide)

/-- `findOne` returns the first match of the flattened priority list:
spellings in order, and for each spelling the headers in order, matching
on lowercase-trimmed equality. -/
theorem findOne_flatMap (options cols : List String) :
    findOne options cols =
      ((options.flatMap (fun o => cols.map (fun c => (o, c)))).find?
          (fun p => normHeader p.2 == normHeader p.1)).map Prod.snd := by
  induction options with
  | nil => rfl
  | cons o rest ih =>
    rw [List.flatMap_cons, List.find?_append, List.find?_map]
    show (match cols.find? (fun c => normHeader c == normHeader o) with
      | some c => some c
      | none => findOne rest cols) = _
    cases h : cols.find? ((fun p => normHeader p.2 == normHeader p.1) ∘
        (fun c => (o, c))) with
    | some c =>
      have h2 : cols.find? (fun c => normHeader c == normHeader o) = some c := h
      rw [h2]
      simp [h]
    | none =>
      have h2 : cols.find? (fun c => normHeader c == normHeader o) = none := h
      rw [h2]
      simp [h, ih]

/-- A canonical field is absent exactly when no accepted spelling matches
any header under lowercase-trimmed equality. -/
theorem findOne_eq_none_iff (options cols : List String) :
    findOne options cols = none ↔
      ∀ o ∈ options, ∀ c ∈ cols, normHeader c ≠ normHeader o := by
  rw [findOne_flatMap]
  simp [List.find?_eq_none, List.mem_flatMap]

/-- One step of the case/whitespace insensitivity argument: `find?` over
normalization-equal header lists returns normalization-equal results. -/
theorem find?_norm_congr (o : String) (cols1 cols2 : List String)
    (h : List.Forall₂ (fun a b => normHeader a = normHeader b) cols1 cols2) :
    (cols1.find? (fun c => normHeader c == normHeader o)).map normHeader =
      (cols2.find? (fun c => normHeader c == normHeader o)).map normHeader := by
  induction h with
  | nil => rfl
  | @cons a b l1 l2 hab htl ih =>
    by_cases hpa : (normHeader a == normHeader o) = true
    · have hpb : (normHeader b == normHeader o) = true := by rw [← hab]; exact hpa
      simp only [List.find?_cons, hpa, hpb]
      simp [hab]
    · have hpa2 : (normHeader a == normHeader o) = false := by simpa using hpa
      have hpb2 : (normHeader b == normHeader o) = false := by rw [← hab]; exact hpa2
      simp only [List.find?_cons, hpa2, hpb2]
      exact ih

/-- Resolution over normalization-equal header lists returns
normalization-equal headers (case/whitespace insensitivity). -/
theorem findOne_norm_congr (options cols1 cols2 : List String)
    (h : List.Forall₂ (fun a b => normHeader a = normHeader b) cols1 cols2) :
    (findOne options cols1).map normHeader = (findOne options cols2).map normHeader := by
  induction options with
  | nil => rfl
  | cons o rest ih =>
    have hfind := find?_norm_congr o cols1 cols2 h
    simp only [findOne]
    cases h1 : cols1.find? (fun c => normHeader c == normHeader o) with
    | some c =>
      cases h2 : cols2.find? (fun c => normHeader c == normHeader o) with
      | some c2 =>
        rw [h1, h2] at hfind
        simpa using hfind
      | none =>
        rw [h1, h2] at hfind
        simp at hfind
    | none =>
      cases h2 : cols2.find? (fun c => normHeader c == normHeader o) with
      | some c2 =>
        rw [h1, h2] at hfind
        simp at hfind
      | none =>
        exact ih

/-- C5: column resolution scans the accepted spellings in order and, for
each spelling, the actual headers in order, matching on lowercase-trimmed
equality, and returns the first header so matched (spelling-list order
over header order), or absent when no spelling matches; normalization-
equal header lists resolve to normalization-equal headers, so the header
" Weather " resolves the weather field exactly as "weather" does.  Each
canonical field maps to a single optional header, so at most one source
header backs it. -/
theorem find_col_first_match :
    (∀ options cols : List String,
        findOne options cols =
          ((options.flatMap (fun o => cols.map (fun c => (o, c)))).find?
              (fun p => normHeader p.2 == normHeader p.1)).map Prod.snd) ∧
    (∀ options cols : List String,
        findOne options cols = none ↔
          ∀ o ∈ options, ∀ c ∈ cols, normHeader c ≠ normHeader o) ∧
    (∀ options cols1 cols2 : List String,
        List.Forall₂ (fun a b => normHeader a = normHeader b) cols1 cols2 →
          (findOne options cols1).map normHeader =
            (findOne options cols2).map normHeader) ∧
    normHeader " Weather " = normHeader "weather" ∧
    (find_col variants [" Weather "]).lookup "weather" = some (some " Weather ") ∧
    (find_col variants ["weather"]).lookup "weather" = some (some "weather") :=
  ⟨findOne_flatMap, findOne_eq_none_iff, findOne_norm_congr,
    by decide, by decide, by decide⟩

/-- C5 (witness): the insensitivity part applied to the weather spellings
and the concrete header lists [" Weather "] and ["weather"]. -/
theorem find_col_first_match_witness :
    (findOne ["Weather", "weather"] [" Weather "]).map normHeader =
      (findOne ["Weather", "weather"] ["weather"]).map normHeader :=
  find_col_first_match.2.2.1 ["Weather", "weather"] [" Weather "] ["weather"]
    (List.Forall₂.cons (by decide) List.Forall₂.nil)

/-- The resolved column map always carries an entry for the mandatory
delivery_time field: the resolution of its four accepted spellings. -/
theorem colMapOf_lookup_dt (t : Table) :
    (colMapOf t).lookup "delivery_time" =
      some (findOne ["Delivery_Time", "Delivery Time", "Time Taken", "delivery_time"]
        (strippedTable t).headers) := rfl

/-- A run over an existing file whose delivery_time field resolves
completes and renders everything. -/
theorem runPipeline_rendered (t : Table) (s : Selections)
    (h : (colMapOf t).lookup "delivery_time" ≠ some none) :
    runPipeline true t s = .rendered (renderAll t s) := by
  have hd := colMapOf_lookup_dt t
  cases hfind : findOne ["Delivery_Time", "Delivery Time", "Time Taken", "delivery_time"]
      (strippedTable t).headers with
  | some hcol =>
    rw [hfind] at hd
    simp [runPipeline, hd]
  | none =>
    rw [hfind] at hd
    exact absurd hd h

/-- A rendered run result is exactly the full render of its inputs. -/
theorem runPipeline_rendered_inv (ex : Bool) (t : Table) (s : Selections)
    (o : RenderOut) (h : runPipeline ex t s = .rendered o) : o = renderAll t s := by
  cases ex with
  | false => simp [runPipeline] at h
  | true =>
    cases hl : (colMapOf t).lookup "delivery_time" with
    | none =>
      rw [runPipeline] at h
      rw [hl] at h
      simp at h
    | some v =>
      cases v with
      | none =>
        rw [runPipeline] at h
        rw [hl] at h
        simp at h
      | some hcol =>
        rw [runPipeline] at h
        rw [hl] at h
        simp at h
        exact h.symm

/-- C7: exactly two conditions are fatal.  When the input file is absent
the run halts at once with the dataset-not-found message; when the
delivery_time field resolves to absent the run halts with the
missing-column message; in both cases the result carries only that
message, so no metric or chart content is rendered.  On every other input
the pipeline runs to completion and renders the full output. -/
theorem fatal_conditions :
    (∀ (t : Table) (s : Selections),
        runPipeline false t s = .fatal "Dataset not found.") ∧
    (∀ (t : Table) (s : Selections),
        (colMapOf t).lookup "delivery_time" = some none →
          runPipeline true t s = .fatal "Could not find the Delivery_Time column.") ∧
    (∀ (t : Table) (s : Selections),
        (colMapOf t).lookup "delivery_time" ≠ some none →
          runPipeline true t s = .rendered (renderAll t s)) := by
  refine ⟨fun t s => rfl, ?_, runPipeline_rendered⟩
  intro t s h
  simp [runPipeline, h]

/-- C7 (witness): the three cases at concrete inputs — a missing file, a
table with no delivery-time spelling among its headers, and a table with
one. -/
theorem fatal_conditions_witness :
    runPipeline false ⟨["Delivery_Time"], []⟩ ⟨[], [], [], [], []⟩ =
        .fatal "Dataset not found." ∧
      runPipeline true ⟨["foo"], []⟩ ⟨[], [], [], [], []⟩ =
        .fatal "Could not find the Delivery_Time column." ∧
      runPipeline true ⟨["Delivery_Time"], []⟩ ⟨[], [], [], [], []⟩ =
        .rendered (renderAll ⟨["Delivery_Time"], []⟩ ⟨[], [], [], [], []⟩) :=
  ⟨fatal_conditions.1 ⟨["Delivery_Time"], []⟩ ⟨[], [], [], [], []⟩,
    fatal_conditions.2.1 ⟨["foo"], []⟩ ⟨[], [], [], [], []⟩ (by decide),
    fatal_conditions.2.2 ⟨["Delivery_Time"], []⟩ ⟨[], [], [], [], []⟩ (by decide)⟩

/-- C8: when the cleaned dataset has at most one record (so the sample
standard deviation is undefined), no derived record is marked late, and a
run over such a table still completes and renders whenever the
delivery_time field resolves (mean and standard deviation being NaN is
tolerated, never an error). -/
theorem small_dataset_no_late :
    ∀ (t : Table) (s : Selections),
      (cleanedOf t).length ≤ 1 →
        (∀ d ∈ addFeatures (cleanedOf t), d.late = 0) ∧
          ((colMapOf t).lookup "delivery_time" ≠ some none →
            runPipeline true t s = .rendered (renderAll t s)) := by
  intro t s hn
  constructor
  · intro d hd
    rcases List.mem_map.mp hd with ⟨r, hr, rfl⟩
    cases hdt : r.delivery_time with
    | none => rfl
    | some x =>
      show lateFlag ((cleanedOf t).filterMap (fun r => r.delivery_time)) x = 0
      have hlen : ((cleanedOf t).filterMap (fun r => r.delivery_time)).length ≤ 1 :=
        le_trans (List.length_filterMap_le _ _) hn
      show (if 2 ≤ ((cleanedOf t).filterMap (fun r => r.delivery_time)).length ∧ _ ∧ _
        then 1 else 0) = 0
      rw [if_neg]
      rintro ⟨h2, -⟩
      omega
  · intro h
    exact runPipeline_rendered t s h

/-- C8 (witness): the theorem applied to a concrete table whose cleaned
form has a single record, with both hypotheses discharged by computation. -/
theorem small_dataset_no_late_witness :
    runPipeline true ⟨["Delivery_Time"], [["5"], [""]]⟩ ⟨[], [], [], [], []⟩ =
      .rendered (renderAll ⟨["Delivery_Time"], [["5"], [""]]⟩ ⟨[], [], [], [], []⟩) :=
  (small_dataset_no_late ⟨["Delivery_Time"], [["5"], [""]]⟩ ⟨[], [], [], [], []⟩
      (by decide)).2 (by decide)

/-- C9: two completed runs over the same table with different filter
selections carry identical feature-extended work tables — late and
age_group are computed once from the full cleaned dataset and are never
recomputed from or affected by the filtered view — and every record of
one run's filtered view appears (with the same late and age_group values)
in the other run's work table. -/
theorem features_independent_of_filters :
    ∀ (ex : Bool) (t : Table) (s1 s2 : Selections) (o1 o2 : RenderOut),
      runPipeline ex t s1 = .rendered o1 →
        runPipeline ex t s2 = .rendered o2 →
          o1.work = o2.work ∧ ∀ d ∈ o1.filtered, d ∈ o2.work := by
  intro ex t s1 s2 o1 o2 h1 h2
  have e1 : o1 = renderAll t s1 := runPipeline_rendered_inv ex t s1 o1 h1
  have e2 : o2 = renderAll t s2 := runPipeline_rendered_inv ex t s2 o2 h2
  subst e1
  subst e2
  constructor
  · rfl
  · intro d hd
    exact (List.mem_filter.mp hd).1

/-- C9 (witness): the theorem applied to a concrete table and two
different selection choices, the run hypotheses discharged through the
completion lemma. -/
theorem features_independent_of_filters_witness :
    (renderAll ⟨["Delivery_Time"], []⟩ ⟨[], [], [], [], []⟩).work =
        (renderAll ⟨["Delivery_Time"], []⟩ ⟨["a"], ["b"], [], [], []⟩).work ∧
      ∀ d ∈ (renderAll ⟨["Delivery_Time"], []⟩ ⟨[], [], [], [], []⟩).filtered,
        d ∈ (renderAll ⟨["Delivery_Time"], []⟩ ⟨["a"], ["b"], [], [], []⟩).work :=
  features_independent_of_filters true ⟨["Delivery_Time"], []⟩
    ⟨[], [], [], [], []⟩ ⟨["a"], ["b"], [], [], []⟩ _ _
    (runPipeline_rendered _ _ (by decide)) (runPipeline_rendered _ _ (by decide))

end LastMile
